import Mathlib

/-!
Verification development for the `sniproxy` repository: a shallow embedding of
the tunnel engine (`internal/sniproxy`), the selective DNS rewriter
(`internal/dnsproxy`), the wildcard filter helper (`internal/filter`), the
rate-limited reader/writer (`internal/shapeio`), and proofs of the spec claims
against it.

Machine integers of the source (ports, DNS types, byte counts) are modelled as
`Nat`; none of the modelled code paths overflow or rely on wrap-around.
Strings are Lean `String`s, and `strings.ToLower` is modelled on the ASCII
range (hostnames and DNS names in the modelled paths are ASCII).
-/

namespace SNIProxyModel

/-! ## Wildcard matcher

Models `wildcard.MatchSimple` from the `IGLOU-EU/go-wildcard` v1.0.3 dependency
(component 4.A of the spec): `*` matches any run of characters; a `?` in the
pattern consumes exactly one character of the target; any other pattern
character must match literally.  Matching is case-sensitive. -/

/-- Models `deepMatchRune(str, pattern, simple=true)` of go-wildcard: the inner
recursion of `MatchSimple`.  In the library, the `*` case is
`deepMatch(str, ps) || (str ≠ [] && deepMatch(str[1:], pat))`, whose unrolling
over `str` is "some suffix of `str` matches the rest of the pattern"; it is
written here in that unrolled form (`tails.any`) so that the recursion is
structural on the pattern. -/
def matchChars : List Char → List Char → Bool
  | [], str => str.isEmpty
  | p :: ps, str =>
    if p == '*' then str.tails.any (fun t => matchChars ps t)
    else
      match str with
      | [] => false
      | c :: cs => (p == '?' || c == p) && matchChars ps cs

/-- Models `wildcard.MatchSimple(pattern, name)`. -/
def matchSimple (pattern str : String) : Bool :=
  if pattern == "" then str == pattern
  else if pattern == "*" then true
  else matchChars pattern.data str.data

/-- Models `filter.MatchWildcards(str, wildcards)` from `internal/filter`:
true iff `str` matches some pattern of the list (first match wins; an empty
list yields false). -/
def matchWildcards (str : String) (wildcards : List String) : Bool :=
  wildcards.any (fun w => matchSimple w str)

/-! ## String helpers of the Go standard library used by the handlers -/

/-- Models `strings.ToLower` on one ASCII character. -/
def lowerChar (c : Char) : Char :=
  if 'A' ≤ c && c ≤ 'Z' then Char.ofNat (c.toNat + 32) else c

/-- Models `strings.ToLower` (ASCII range). -/
def toLowerStr (s : String) : String := String.mk (s.data.map lowerChar)

/-- Models `strings.TrimSuffix(s, ".")`: removes one trailing dot if present. -/
def trimSuffixDot (s : String) : String :=
  match s.data.getLast? with
  | some c => if c == '.' then String.mk s.data.dropLast else s
  | none => s

/-! ## DNS rewriter (`internal/dnsproxy/dnsproxy.go`)

The DNS wire codec (`miekg/dns`) is a black box per the spec; messages are
modelled structurally: a question (name, qtype) and, for responses, the echoed
question list, the answer records, and the response code. -/

/-- `dns.TypeA`. -/
def typeA : Nat := 1

/-- `dns.TypeAAAA`. -/
def typeAAAA : Nat := 28

/-- `dns.ClassINET`. -/
def classINET : Nat := 1

/-- `defaultTTL` from `internal/dnsproxy/dnsproxy.go`. -/
def defaultTTL : Nat := 60

/-- A DNS question: `dns.Question` (name, query type). -/
structure Question where
  name : String
  qtype : Nat
deriving DecidableEq, Repr

/-- `dns.RR_Header`: the header of a resource record. -/
structure RRHeader where
  name : String
  rrtype : Nat
  rclass : Nat
  ttl : Nat
deriving DecidableEq, Repr

/-- A resource record: header plus its address payload (`dns.A.A` /
`dns.AAAA.AAAA`), kept as the configured IP literal. -/
structure ResourceRecord where
  hdr : RRHeader
  rdata : String
deriving DecidableEq, Repr

/-- A DNS message (`dns.Msg`), restricted to the fields the handlers touch. -/
structure DnsMsg where
  id : Nat
  response : Bool
  rcode : Nat
  question : List Question
  answer : List ResourceRecord
deriving DecidableEq, Repr

/-- Models `resp.SetReply(req)` of `miekg/dns` (black-box codec): copies the
id, marks the message a response with rcode `Success` (0 = NOERROR), and
echoes the first question. -/
def setReply (req : DnsMsg) : DnsMsg :=
  { id := req.id
    response := true
    rcode := 0
    question := match req.question with
      | [] => []
      | q :: _ => [q]
    answer := [] }

/-- The `DNSProxy` rule state (`internal/dnsproxy/dnsproxy.go`): redirect and
drop rule lists and the optional redirect targets (`net.IP` fields are nilable,
hence `Option`). -/
structure DNSProxyCfg where
  redirectRules : List String
  redirectIPv4To : Option String
  redirectIPv6To : Option String
  dropRules : List String
deriving DecidableEq, Repr

/-- Models `(*DNSProxy).rewrite(qName, qType, ctx)`: builds the synthesized
reply set into `ctx.Res`.  The `switch` appends exactly one `A` (resp. `AAAA`)
record when the matching redirect target is configured, and nothing
otherwise. -/
def rewrite (d : DNSProxyCfg) (qName : String) (qType : Nat) (req : DnsMsg) : DnsMsg :=
  let resp := setReply req
  let hdr : RRHeader := { name := qName, rrtype := qType, rclass := classINET, ttl := defaultTTL }
  match qType == typeA, d.redirectIPv4To with
  | true, some ip4 => { resp with answer := resp.answer ++ [{ hdr := hdr, rdata := ip4 }] }
  | _, _ =>
    match qType == typeAAAA, d.redirectIPv6To with
    | true, some ip6 => { resp with answer := resp.answer ++ [{ hdr := hdr, rdata := ip6 }] }
    | _, _ => resp
/-- What `(*DNSProxy).requestHandler` did with a query.  `noResponse` covers
both `return nil` paths that leave `ctx.Res = nil` (the early non-A/AAAA return
and the drop branch): per the `dnsproxy` library contract, a nil `ctx.Res`
makes the server emit nothing.  `resolved` is the `p.Resolve(ctx)` path that
forwards the query to the configured upstream and returns its response. -/
inductive DnsAction where
  | noResponse
  | rewritten (resp : DnsMsg)
  | resolved
deriving DecidableEq, Repr

/-- Models `(*DNSProxy).requestHandler(p, ctx)`.  The source indexes
`ctx.Req.Question[0]` unconditionally (the library guarantees a non-empty
question section); a message with no question is outside the modelled domain,
hence the `none` result. -/
def requestHandler (d : DNSProxyCfg) (req : DnsMsg) : Option DnsAction :=
  match req.question with
  | [] => none
  | q :: _ =>
    let qName := toLowerStr q.name
    let qType := q.qtype
    if qType != typeA && qType != typeAAAA then
      some .noResponse
    else
      let domainName := trimSuffixDot qName
      if matchWildcards domainName d.dropRules then
        some .noResponse
      else if matchWildcards domainName d.redirectRules then
        some (.rewritten (rewrite d qName qType req))
      else
        some .resolved

/-- The configured redirect target for a query type: what the spec calls "the
configured target for that query type" (`--dns-redirect-ipv4-to` for `A`,
`--dns-redirect-ipv6-to` for `AAAA`). -/
def targetFor (d : DNSProxyCfg) (qType : Nat) : Option String :=
  if qType = typeA then d.redirectIPv4To
  else if qType = typeAAAA then d.redirectIPv6To
  else none

/-! ## Host/port helpers (`netutil` of AdguardTeam/golibs, black box)

`netutil.SplitHostPort` wraps `net.SplitHostPort` and parses the port: it
fails when there is no colon, when the host part itself contains a colon
(unbracketed), or when the port is empty or non-numeric.
`netutil.JoinHostPort` brackets a host containing a colon. -/

/-- ASCII decimal digit test. -/
def isDigitChar (c : Char) : Bool := '0' ≤ c && c ≤ '9'

/-- Numeric value of a decimal digit string. -/
def digitsToNat (cs : List Char) : Nat :=
  cs.foldl (fun a c => a * 10 + (c.toNat - 48)) 0

/-- Models `netutil.SplitHostPort(hostport)`: split at the last colon and parse
the port; `none` models the error return. -/
def splitHostPort (s : String) : Option (String × Nat) :=
  let cs := s.data
  if !cs.contains ':' then none
  else
    let revPort := cs.reverse.takeWhile (fun c => c != ':')
    let portCs := revPort.reverse
    let host := cs.take (cs.length - portCs.length - 1)
    if host.contains ':' then none
    else if portCs.isEmpty then none
    else if portCs.all isDigitChar then some (String.mk host, digitsToNat portCs)
    else none

/-- Models `netutil.JoinHostPort(host, port)`. -/
def joinHostPort (host : String) (port : Nat) : String :=
  if host.data.contains ':' then "[" ++ host ++ "]:" ++ Nat.repr port
  else host ++ ":" ++ Nat.repr port

/-! ## Tunnel engine (`internal/sniproxy/sniproxy.go`) -/

/-- `remotePortPlain`: upstream port for plain HTTP connections. -/
def remotePortPlain : Nat := 80

/-- `remotePortTLS`: upstream port for TLS connections. -/
def remotePortTLS : Nat := 443

/-- `tls.ClientHelloInfo`, restricted to the field the proxy reads.  `sni` is
the SNI extension value of the ClientHello: `none` when the extension is
absent, in which case the Go field `ClientHelloInfo.ServerName` is the empty
string. -/
structure ClientHelloInfo where
  sni : Option String
deriving DecidableEq, Repr

/-- The Go field `ClientHelloInfo.ServerName`: the SNI value, or `""` when the
ClientHello carries no SNI extension. -/
def serverNameOf (h : ClientHelloInfo) : String := h.sni.getD ""

/-- Outcome of `tls.Server(readOnlyConn{...}, cfg).Handshake()` with the
capturing `GetConfigForClient` callback of `readClientHello` (the TLS stack is
a black box per the spec).  The stack invokes the callback for every
syntactically valid ClientHello — with or without SNI — before any certificate
selection or write; afterwards the handshake necessarily errors (the config
has no certificates and `readOnlyConn.Write` returns `io.ErrClosedPipe`), so a
captured hello always comes with some handshake error.  If parsing fails
before the callback runs, no hello is captured. -/
inductive HandshakeOutcome where
  | parsedHello (hello : ClientHelloInfo) (handshakeErr : String)
  | failedBeforeHello (err : String)
deriving DecidableEq, Repr

/-- Models `readClientHello(reader)`: runs the handshake; if the callback
captured a hello (`hello != nil`), the handshake error is discarded and the
hello is returned, otherwise the error is returned. -/
def readClientHello : HandshakeOutcome → Except String ClientHelloInfo
  | .parsedHello hello _ => .ok hello
  | .failedBeforeHello e => .error e

/-- The per-connection peek input: for the TLS listener, the handshake outcome
on the peeked bytes; for the plain-HTTP listener, the `Host` header of the
parsed request, or `none` when `http.ReadRequest` fails. -/
inductive PeekInput where
  | tlsConn (hs : HandshakeOutcome)
  | httpConn (host : Option String)
deriving DecidableEq, Repr

/-- The `plainHTTP` flag of `handleConnection`/`peekServerName`, determined by
which listener accepted the connection. -/
def isPlainHTTP : PeekInput → Bool
  | .tlsConn _ => false
  | .httpConn _ => true

/-- Models `peekServerName(reader, plainHTTP)`: the HTTP branch takes the
`Host` header of the request (`peekHTTPHost`), the TLS branch takes
`clientHello.ServerName` (`peekClientHello`). -/
def peekServerName : PeekInput → Except String String
  | .httpConn none => .error "sniproxy: failed to read http request"
  | .httpConn (some h) => .ok h
  | .tlsConn hs =>
    match readClientHello hs with
    | .error e => .error e
    | .ok hello => .ok (serverNameOf hello)

/-- The `SNIProxy` rule state: whether a forward proxy dialer was configured
(`proxyDialer != nil`), and the forward and block rule lists. -/
structure SNIProxyCfg where
  hasProxyDialer : Bool
  forwardRules : List String
  blockRules : List String
deriving DecidableEq, Repr

/-- Models `(*SNIProxy).shouldForward(ctx)`: no proxy dialer means never;
an empty forward-rule list means always; otherwise the first matching rule
wins. -/
def shouldForward (p : SNIProxyCfg) (remoteHost : String) : Bool :=
  if !p.hasProxyDialer then false
  else if p.forwardRules.isEmpty then true
  else p.forwardRules.any (fun r => matchSimple r remoteHost)

/-- The host part of the peeked server name after the `netutil.SplitHostPort`
attempt in `handleConnection`: on success the host part, on error the peeked
name unchanged (sniproxy.go lines 191-198). -/
def hostOfServerName (sn : String) : String :=
  match splitHostPort sn with
  | some (h, _) => h
  | none => sn

/-- The upstream port after the same split: the embedded port on success,
otherwise 80 (plain listener) or 443 (TLS listener). -/
def portOfServerName (plainHTTP : Bool) (sn : String) : Nat :=
  match splitHostPort sn with
  | some (_, pt) => pt
  | none => if plainHTTP then remotePortPlain else remotePortTLS

/-- How a session ended, observed at the granularity of the claims:
`peekFailed e` is the early error return before the rule check; `blocked h`
is the block-rule `return nil` (the deferred `clientConn.Close` then closes
the client, and `p.dial` is never reached); `tunneling h addr viaProxy` means
`p.dial(ctx)` ran for `addr`, through the forward-proxy dialer iff
`viaProxy`. -/
inductive SessionOutcome where
  | peekFailed (e : String)
  | blocked (host : String)
  | tunneling (host : String) (addr : String) (viaProxy : Bool)
deriving DecidableEq, Repr

/-- `true` iff the outcome reached `p.dial` (an upstream dial occurred). -/
def SessionOutcome.dials : SessionOutcome → Bool
  | .tunneling _ _ _ => true
  | _ => false

/-- Models `(*SNIProxy).handleConnection(clientConn, plainHTTP)` from the peek
up to the dial decision: peek the server name, split off an embedded port or
fall back to the default port of the listener, check the block rules against
`ctx.RemoteHost` (the block loop over `wildcard.MatchSimple` is
`matchWildcards`), and otherwise dial — via the forward proxy iff
`shouldForward`. -/
def handleConnection (p : SNIProxyCfg) (inp : PeekInput) : SessionOutcome :=
  match peekServerName inp with
  | .error e => .peekFailed e
  | .ok sn =>
    let serverName := hostOfServerName sn
    let remotePort := portOfServerName (isPlainHTTP inp) sn
    let remoteAddr := joinHostPort serverName remotePort
    if matchWildcards serverName p.blockRules then
      .blocked serverName
    else
      .tunneling serverName remoteAddr (shouldForward p serverName)

/-! ## Byte streams: tee capture during the peek and the tunnel copy

The client socket is a byte stream (`List Nat`).  During the peek,
`peekClientHello`/`peekHTTPHost` read through `io.TeeReader(reader,
peekedBytes)`, so every chunk the sniffing parser pulls is appended to the
capture buffer; the schedule of read sizes the parser issues is arbitrary.
The returned reader is `io.MultiReader(peekedBytes, reader)`: the capture
buffer replayed first, then the rest of the socket. -/

/-- Models the peek phase on the remaining stream `rem` under a read-size
schedule: returns the tee-captured buffer (`peekedBytes`) and what is still
unread on the socket.  Each `read n` through the tee yields the next at most
`n` bytes and appends exactly those to the buffer. -/
def peekPhase : List Nat → List Nat → List Nat × List Nat
  | rem, [] => ([], rem)
  | rem, n :: sched =>
    let rest := peekPhase (rem.drop n) sched
    (rem.take n ++ rest.1, rest.2)

/-- Models the `io.Copy(writer, reader)` loop of `tunnel`: repeatedly read a
chunk of at most `b + 1` bytes and append it to the destination, until the
source is exhausted.  Returns the byte stream written to the destination,
offset 0 first. -/
def ioCopy (b : Nat) : List Nat → List Nat
  | [] => []
  | x :: xs => ((x :: xs).take (b + 1)) ++ ioCopy b ((x :: xs).drop (b + 1))
termination_by l => l.length
decreasing_by
  simp [List.length_drop]
  omega

/-- The bytes written to the upstream connection by the client→upstream
direction of `handleConnection`: `io.Copy` over
`io.MultiReader(peekedBytes, reader)`, i.e. over the captured peek buffer
followed by the unread remainder of the client socket. -/
def tunnelUpstreamBytes (s sched : List Nat) (b : Nat) : List Nat :=
  ioCopy b ((peekPhase s sched).1 ++ (peekPhase s sched).2)

/-! ## Rate-limited reader and writer (`internal/shapeio`, src/unnamed/part_002) -/

/-- The `(n, err)` pair returned by an `io.Reader.Read` or `io.Writer.Write`
call. -/
structure IOResult where
  n : Nat
  err : Option String
deriving DecidableEq, Repr

/-- An interaction with the token-bucket limiter: `waitN n` is a
`limiter.WaitN(ctx, n)` call. -/
inductive LimiterEvent where
  | waitN (n : Nat)
deriving DecidableEq, Repr

/-- Models `(*shapeio.Reader).Read`: without a limiter, pass through; with
one, first perform the wrapped read, and only when it returned a nil error
wait for `n` tokens (a failed wait replaces the nil error).  Inputs: whether
`s.limiter != nil`, the result of the wrapped read, and the result a `WaitN` call
would have (`rate.Limiter.WaitN` can fail even on `context.Background()`,
e.g. when `n` exceeds the burst).  Returns the result of the call and the trace of
limiter interactions. -/
def readerRead (hasLimiter : Bool) (res : IOResult) (waitErr : Option String) :
    IOResult × List LimiterEvent :=
  if !hasLimiter then (res, [])
  else
    match res.err with
    | some e => ({ n := res.n, err := some e }, [])
    | none =>
      match waitErr with
      | some e => ({ n := res.n, err := some e }, [LimiterEvent.waitN res.n])
      | none => ({ n := res.n, err := none }, [LimiterEvent.waitN res.n])

/-- Models `(*shapeio.Writer).Write`: same shape as `readerRead`, over the
wrapped write. -/
def writerWrite (hasLimiter : Bool) (res : IOResult) (waitErr : Option String) :
    IOResult × List LimiterEvent :=
  if !hasLimiter then (res, [])
  else
    match res.err with
    | some e => ({ n := res.n, err := some e }, [])
    | none =>
      match waitErr with
      | some e => ({ n := res.n, err := some e }, [LimiterEvent.waitN res.n])
      | none => ({ n := res.n, err := none }, [LimiterEvent.waitN res.n])

/-! ## Accept loop (`acceptLoop`, sniproxy.go lines 148-169) -/

/-- Character-list matching helper: does the second list start with the
first? -/
def startsWithChars : List Char → List Char → Bool
  | [], _ => true
  | _ :: _, [] => false
  | a :: as, b :: bs => a == b && startsWithChars as bs

/-- Character-list matching helper: does the needle occur contiguously in the
haystack? -/
def infixChars (nd : List Char) : List Char → Bool
  | [] => nd.isEmpty
  | c :: cs => startsWithChars nd (c :: cs) || infixChars nd cs

/-- Models `strings.Contains(haystack, needle)`. -/
def containsSub (haystack needle : String) : Bool :=
  infixChars needle.data haystack.data

/-- The `(conn, err)` pair a `Listener.Accept` call returned.  When Accept
fails, the returned `net.Conn` interface value is nil (`conn = none`). -/
structure AcceptResult where
  conn : Option Nat
  err : Option String
deriving DecidableEq, Repr

/-- What one iteration of the accept loop does next. -/
inductive LoopStep where
  | exitLoop
  | spawnHandler (conn : Option Nat)
deriving DecidableEq, Repr

/-- Models one iteration of `acceptLoop`: exit only when the error is non-nil
and contains "closed network connection"; in every other case — including a
non-nil transient error — fall through to `go p.handleConnection(conn, ...)`
with whatever `conn` Accept returned. -/
def acceptIteration (r : AcceptResult) : LoopStep :=
  match r.err with
  | some e =>
    if containsSub e "closed network connection" then .exitLoop
    else .spawnHandler r.conn
  | none => .spawnHandler r.conn

/-- Fate of the spawned goroutine running `handleConnection`. -/
inductive HandlerFate where
  | panicked
  | completed (out : SessionOutcome)
deriving DecidableEq, Repr

/-- Models the goroutine body spawned by `acceptLoop`.  `handleConnection`
immediately defers `clientConn.Close` and calls
`clientConn.SetReadDeadline(...)`: on a nil connection these are method calls
through a nil `net.Conn` interface, which panic in Go, and nothing in the
goroutine recovers. -/
def runSpawnedHandler (p : SNIProxyCfg) (conn : Option Nat) (inp : PeekInput) : HandlerFate :=
  match conn with
  | none => .panicked
  | some _ => .completed (handleConnection p inp)

/-! ## Supporting lemmas -/

/-- The tee-captured peek buffer followed by the unread remainder of the
socket is exactly the original client stream. -/
theorem peekPhase_append : ∀ (sched rem : List Nat),
    (peekPhase rem sched).1 ++ (peekPhase rem sched).2 = rem
  | [], _ => rfl
  | n :: sched, rem => by
    simp only [peekPhase, List.append_assoc]
    rw [peekPhase_append sched (rem.drop n), List.take_append_drop]

/-- The copy loop writes its source unchanged. -/
theorem ioCopy_id (b : Nat) (l : List Nat) : ioCopy b l = l := by
  have H : ∀ (n : Nat) (l : List Nat), l.length ≤ n → ioCopy b l = l := by
    intro n
    induction n with
    | zero =>
      intro l hl
      have : l = [] := List.eq_nil_of_length_eq_zero (Nat.le_zero.mp hl)
      subst this
      simp [ioCopy]
    | succ n ih =>
      intro l hl
      cases l with
      | nil => simp [ioCopy]
      | cons x xs =>
        rw [ioCopy, ih ((x :: xs).drop (b + 1)) (by simp at hl ⊢; omega),
          List.take_append_drop]
  exact H l.length l (Nat.le_refl _)

/-- Unfolding of the forward decision into the shape of the spec sentence. -/
theorem shouldForward_iff (p : SNIProxyCfg) (host : String) :
    shouldForward p host = true ↔
      p.hasProxyDialer = true ∧
        (p.forwardRules = [] ∨ ∃ r ∈ p.forwardRules, matchSimple r host = true) := by
  unfold shouldForward
  cases hd : p.hasProxyDialer with
  | false => simp
  | true =>
    cases hr : p.forwardRules with
    | nil => simp
    | cons a as => simp [List.any_eq_true]

/-! ## Claims -/

/-- Claim C1: for every tunneled session, the byte stream written to the
upstream connection, starting from offset 0, is exactly the concatenation of
the bytes captured during the peek phase followed by the remaining bytes read
from the client socket, and hence an unmodified copy of everything the client
sent — for every client stream `s`, every peek read schedule and every copy
chunk size. -/
theorem upstream_receives_exact_stream (s sched : List Nat) (b : Nat) :
    tunnelUpstreamBytes s sched b = (peekPhase s sched).1 ++ (peekPhase s sched).2 ∧
    tunnelUpstreamBytes s sched b = s := by
  have h1 : tunnelUpstreamBytes s sched b
      = (peekPhase s sched).1 ++ (peekPhase s sched).2 := ioCopy_id b _
  exact ⟨h1, h1.trans (peekPhase_append sched s)⟩

/-- Claim C2 counterexample: a syntactically valid ClientHello with no SNI
extension does NOT fail the peek step.  The TLS stack still invokes the
capturing callback, `readClientHello` discards the subsequent handshake error
because the hello was captured, the empty `ServerName` escapes, and the
handler proceeds all the way to dialing `:443` — refuting "the peek step
fails and the connection is closed without dialing any upstream". -/
theorem no_sni_session_still_dials :
    handleConnection ⟨false, [], []⟩
        (.tlsConn (.parsedHello ⟨none⟩ "tls: no certificates configured"))
      = .tunneling "" ":443" false ∧
    (handleConnection ⟨false, [], []⟩
        (.tlsConn (.parsedHello ⟨none⟩ "tls: no certificates configured"))).dials = true :=
  ⟨by decide, by decide⟩

/-- Claim C2 amended: for every TLS connection whose ClientHello parses but
contains no SNI extension, the peek step SUCCEEDS with an empty server name,
and (when the empty hostname matches no block rule) the handler proceeds to
dial the upstream address `":443"`. -/
theorem no_sni_peek_succeeds_empty_host (p : SNIProxyCfg) (hello : ClientHelloInfo)
    (he : String) (hsni : hello.sni = none)
    (hnb : matchWildcards "" p.blockRules = false) :
    handleConnection p (.tlsConn (.parsedHello hello he))
      = .tunneling "" ":443" (shouldForward p "") := by
  have hpeek : peekServerName (.tlsConn (.parsedHello hello he)) = .ok "" := by
    simp [peekServerName, readClientHello, serverNameOf, hsni]
  have hh : hostOfServerName "" = "" := by decide
  have hp : portOfServerName false "" = 443 := by decide
  simp [handleConnection, hpeek, isPlainHTTP, hh, hp, hnb, joinHostPort]
  decide

/-- Claim C2 amended, witness at a concrete no-SNI hello with empty rule
sets. -/
theorem no_sni_peek_succeeds_empty_host_witness :
    handleConnection ⟨false, [], []⟩ (.tlsConn (.parsedHello ⟨none⟩ "e"))
      = .tunneling "" ":443" (shouldForward ⟨false, [], []⟩ "") :=
  no_sni_peek_succeeds_empty_host ⟨false, [], []⟩ ⟨none⟩ "e" rfl (by decide)

/-- Claim C3 counterexample: a TXT query (qtype 16, neither A nor AAAA) is
NOT forwarded to the configured upstream: `requestHandler` takes the early
`return nil` branch, leaving `ctx.Res` nil (no response is emitted), and never
reaches `p.Resolve`. -/
theorem txt_query_not_forwarded :
    requestHandler ⟨["*"], some "127.0.0.1", none, []⟩
        { id := 1, response := false, rcode := 0,
          question := [⟨"example.org.", 16⟩], answer := [] }
      = some DnsAction.noResponse ∧
    requestHandler ⟨["*"], some "127.0.0.1", none, []⟩
        { id := 1, response := false, rcode := 0,
          question := [⟨"example.org.", 16⟩], answer := [] }
      ≠ some DnsAction.resolved :=
  ⟨by decide, by decide⟩

/-- Claim C3 amended: for every inbound DNS message whose first question has
a type that is neither A nor AAAA, the handler does nothing at all: it
neither forwards the query to the upstream nor synthesizes an answer —
`ctx.Res` stays nil and the server emits no response. -/
theorem non_a_aaaa_query_unanswered (d : DNSProxyCfg) (req : DnsMsg)
    (q : Question) (qs : List Question)
    (hq : req.question = q :: qs)
    (hA : q.qtype ≠ typeA) (hAAAA : q.qtype ≠ typeAAAA) :
    requestHandler d req = some DnsAction.noResponse := by
  simp [requestHandler, hq, hA, hAAAA]

/-- Claim C3 amended, witness at a concrete TXT query. -/
theorem non_a_aaaa_query_unanswered_witness :
    requestHandler ⟨["*"], some "127.0.0.1", none, []⟩
        { id := 1, response := false, rcode := 0,
          question := [⟨"example.org.", 16⟩], answer := [] }
      = some DnsAction.noResponse :=
  non_a_aaaa_query_unanswered _ _ ⟨"example.org.", 16⟩ [] rfl (by decide) (by decide)

/-- Claim C4: for every A or AAAA query whose lowercased,
trailing-dot-stripped name matches a redirect rule (and no drop rule, which
is checked first), the handler synthesizes a response that echoes the
question, has rcode NOERROR, and contains exactly one answer record of the
query type carrying the configured redirect target with TTL 60 and class IN —
or an empty answer section when the target for that query type is unset. -/
theorem redirect_synthesizes_single_answer (d : DNSProxyCfg) (req : DnsMsg)
    (q : Question) (qs : List Question)
    (hq : req.question = q :: qs)
    (ht : q.qtype = typeA ∨ q.qtype = typeAAAA)
    (hdrop : matchWildcards (trimSuffixDot (toLowerStr q.name)) d.dropRules = false)
    (hred : matchWildcards (trimSuffixDot (toLowerStr q.name)) d.redirectRules = true) :
    ∃ resp, requestHandler d req = some (DnsAction.rewritten resp) ∧
      resp.id = req.id ∧ resp.response = true ∧ resp.rcode = 0 ∧
      resp.question = [q] ∧
      (match targetFor d q.qtype with
       | some ip =>
          resp.answer = [{ hdr := { name := toLowerStr q.name, rrtype := q.qtype,
                                    rclass := classINET, ttl := defaultTTL },
                           rdata := ip }]
       | none => resp.answer = []) := by
  refine ⟨rewrite d (toLowerStr q.name) q.qtype req, ?_, ?_⟩
  · rcases ht with ht | ht <;>
      simp [requestHandler, hq, ht, typeA, typeAAAA, hdrop, hred]
  · rcases ht with ht | ht
    · cases h4 : d.redirectIPv4To with
      | none =>
        simp [rewrite, setReply, targetFor, ht, typeA, typeAAAA, h4, hq]
      | some ip4 =>
        simp [rewrite, setReply, targetFor, ht, typeA, typeAAAA, h4, hq]
    · cases h6 : d.redirectIPv6To with
      | none =>
        simp [rewrite, setReply, targetFor, ht, typeA, typeAAAA, h6, hq]
      | some ip6 =>
        simp [rewrite, setReply, targetFor, ht, typeA, typeAAAA, h6, hq]

/-- Claim C4, witness at a concrete A query for a configured redirect. -/
theorem redirect_synthesizes_single_answer_witness :
    ∃ resp, requestHandler ⟨["example.org"], some "127.0.0.1", none, []⟩
        { id := 7, response := false, rcode := 0,
          question := [⟨"example.org.", 1⟩], answer := [] }
      = some (DnsAction.rewritten resp) ∧
      resp.id = 7 ∧ resp.response = true ∧ resp.rcode = 0 ∧
      resp.question = [⟨"example.org.", 1⟩] ∧
      (match targetFor ⟨["example.org"], some "127.0.0.1", none, []⟩ (1 : Nat) with
       | some ip =>
          resp.answer = [{ hdr := { name := toLowerStr "example.org.", rrtype := 1,
                                    rclass := classINET, ttl := defaultTTL },
                           rdata := ip }]
       | none => resp.answer = []) :=
  redirect_synthesizes_single_answer ⟨["example.org"], some "127.0.0.1", none, []⟩
    { id := 7, response := false, rcode := 0,
      question := [⟨"example.org.", 1⟩], answer := [] }
    ⟨"example.org.", 1⟩ [] rfl (Or.inl rfl) (by decide) (by decide)

/-- Claim C5: for every A or AAAA query whose lowercased,
trailing-dot-stripped name matches a drop rule, the server emits no DNS
response at all — and since nothing excludes the name from also matching a
redirect rule, this holds even then: drop rules are checked before redirect
rules. -/
theorem drop_rule_no_response (d : DNSProxyCfg) (req : DnsMsg)
    (q : Question) (qs : List Question)
    (hq : req.question = q :: qs)
    (ht : q.qtype = typeA ∨ q.qtype = typeAAAA)
    (hdrop : matchWildcards (trimSuffixDot (toLowerStr q.name)) d.dropRules = true) :
    requestHandler d req = some DnsAction.noResponse := by
  rcases ht with ht | ht <;>
    simp [requestHandler, hq, ht, typeA, typeAAAA, hdrop]

/-- Claim C5, witness at a concrete dropped query whose name ALSO matches the
redirect rule `*`, demonstrating drop-before-redirect precedence. -/
theorem drop_rule_no_response_witness :
    requestHandler ⟨["*"], some "127.0.0.1", none, ["drop.test"]⟩
        { id := 3, response := false, rcode := 0,
          question := [⟨"DROP.test.", 1⟩], answer := [] }
      = some DnsAction.noResponse :=
  drop_rule_no_response _ _ ⟨"DROP.test.", 1⟩ [] rfl (Or.inl rfl) (by decide)

/-- Claim C6: for every accepted session that is not blocked (the session
reached the dial), the upstream is dialed through the configured forward
proxy if and only if a forward proxy is configured and (the forward rule list
is empty or the peeked host matches some forward rule); otherwise it is
dialed directly. -/
theorem forward_decision_iff (p : SNIProxyCfg) (inp : PeekInput) (h a : String) (v : Bool)
    (hres : handleConnection p inp = .tunneling h a v) :
    v = true ↔
      p.hasProxyDialer = true ∧
        (p.forwardRules = [] ∨ ∃ r ∈ p.forwardRules, matchSimple r h = true) := by
  have hv : v = shouldForward p h := by
    unfold handleConnection at hres
    cases hpk : peekServerName inp with
    | error e => rw [hpk] at hres; simp at hres
    | ok sn =>
      rw [hpk] at hres
      by_cases hb : matchWildcards (hostOfServerName sn) p.blockRules = true
      · simp [hb] at hres
      · simp [hb] at hres
        obtain ⟨h1, _, h3⟩ := hres
        rw [← h1, ← h3]
  rw [hv]
  exact shouldForward_iff p h

/-- Claim C6, witness: proxy configured, empty forward rules — the session is
forwarded. -/
theorem forward_decision_iff_witness :
    true = true ↔
      (⟨true, [], []⟩ : SNIProxyCfg).hasProxyDialer = true ∧
        ((⟨true, [], []⟩ : SNIProxyCfg).forwardRules = [] ∨
          ∃ r ∈ (⟨true, [], []⟩ : SNIProxyCfg).forwardRules,
            matchSimple r "example.org" = true) :=
  forward_decision_iff ⟨true, [], []⟩ (.httpConn (some "example.org"))
    "example.org" "example.org:80" true (by decide)

/-- Claim C7: for every session whose peeked host matches a block rule, the
handler returns at the block check (the deferred close then closes the client
connection) and the session never advances to dialing: no `tunneling` outcome
is possible and no upstream dial occurs. -/
theorem block_rule_prevents_dial (p : SNIProxyCfg) (inp : PeekInput) (sn : String)
    (hpeek : peekServerName inp = .ok sn)
    (hblock : matchWildcards (hostOfServerName sn) p.blockRules = true) :
    handleConnection p inp = .blocked (hostOfServerName sn) ∧
    (handleConnection p inp).dials = false := by
  have h : handleConnection p inp = .blocked (hostOfServerName sn) := by
    unfold handleConnection
    rw [hpeek]
    simp [hblock]
  exact ⟨h, by simp [h, SessionOutcome.dials]⟩

/-- Claim C7, witness: SNI `blocked.test` against block rule `blocked.test`. -/
theorem block_rule_prevents_dial_witness :
    handleConnection ⟨true, [], ["blocked.test"]⟩
        (.tlsConn (.parsedHello ⟨some "blocked.test"⟩ "e"))
      = .blocked (hostOfServerName "blocked.test") ∧
    (handleConnection ⟨true, [], ["blocked.test"]⟩
        (.tlsConn (.parsedHello ⟨some "blocked.test"⟩ "e"))).dials = false :=
  block_rule_prevents_dial ⟨true, [], ["blocked.test"]⟩
    (.tlsConn (.parsedHello ⟨some "blocked.test"⟩ "e")) "blocked.test" rfl (by decide)

/-- Claim C8: evaluation at the failing input.  When Accept returns a
transient error (one not containing "closed network connection"), the loop
does fall through — but it spawns the connection handler on the nil
connection Accept returned alongside the error, and that handler panics (a
method call through a nil `net.Conn` interface) with no recover in the
goroutine.  The claim says the loop merely continues and no panic escapes the
spawned handler; the code violates it. -/
theorem transient_accept_error_panics :
    acceptIteration ⟨none, some "accept tcp: connection reset by peer"⟩
      = LoopStep.spawnHandler none ∧
    runSpawnedHandler ⟨false, [], []⟩ none (.httpConn none) = HandlerFate.panicked :=
  ⟨by decide, rfl⟩

/-- Claim C9 counterexample: in the tunnel path the peeked hostname escapes
the peek step WITHOUT being lowercased: an HTTP `Host: EXAMPLE.COM` is
compared verbatim against the block rules — the block rule `example.com` does
not block it — and is dialed as `EXAMPLE.COM:80`, refuting "the host that is
compared against the block and forward rule sets is lowercase". -/
theorem uppercase_host_escapes_peek :
    handleConnection ⟨false, [], ["example.com"]⟩ (.httpConn (some "EXAMPLE.COM"))
      = .tunneling "EXAMPLE.COM" "EXAMPLE.COM:80" false ∧
    toLowerStr "EXAMPLE.COM" ≠ "EXAMPLE.COM" :=
  ⟨by decide, by decide⟩

/-- Claim C9 amended: only the DNS path lowercases and strips the trailing
dot before rule matching (the hypotheses of the C4/C5 theorems); the tunnel
engine compares the peeked hostname verbatim: for every peeked name without a
colon, the host checked against the block rules and — when unblocked —
matched against the forward rules and dialed is the peeked string itself,
unchanged. -/
theorem peeked_host_escapes_verbatim (p : SNIProxyCfg) (inp : PeekInput) (sn : String)
    (hpeek : peekServerName inp = .ok sn)
    (hnc : sn.data.contains ':' = false) :
    handleConnection p inp =
      (if matchWildcards sn p.blockRules then .blocked sn
       else .tunneling sn (joinHostPort sn (portOfServerName (isPlainHTTP inp) sn))
              (shouldForward p sn)) := by
  have hsp : splitHostPort sn = none := by
    simp only [splitHostPort]
    rw [hnc]
    rfl
  have hh : hostOfServerName sn = sn := by
    simp [hostOfServerName, hsp]
  unfold handleConnection
  rw [hpeek]
  simp only [hh]

/-- Claim C9 amended, witness at a mixed-case HTTP Host. -/
theorem peeked_host_escapes_verbatim_witness :
    handleConnection ⟨false, [], []⟩ (.httpConn (some "AbC.org")) =
      (if matchWildcards "AbC.org" ([] : List String) then .blocked "AbC.org"
       else .tunneling "AbC.org"
              (joinHostPort "AbC.org"
                (portOfServerName (isPlainHTTP (.httpConn (some "AbC.org"))) "AbC.org"))
              (shouldForward ⟨false, [], []⟩ "AbC.org")) :=
  peeked_host_escapes_verbatim ⟨false, [], []⟩ (.httpConn (some "AbC.org")) "AbC.org"
    rfl (by decide)

/-- Claim C10: whenever the wrapped stream returns a non-nil error, the
rate-limited Read (and Write) returns the byte count and the error
immediately with no token-bucket interaction — an erroring final chunk is
never throttled — and conversely a limiter wait happens only on a fully
successful (nil-error) read or write with the limiter present. -/
theorem erroring_io_not_throttled (hasLimiter : Bool) (res : IOResult)
    (waitErr : Option String) (e : String) (herr : res.err = some e) :
    readerRead hasLimiter res waitErr = (res, []) ∧
    writerWrite hasLimiter res waitErr = (res, []) ∧
    (∀ (hl : Bool) (r : IOResult) (w : Option String),
      (readerRead hl r w).2 ≠ [] → hl = true ∧ r.err = none) ∧
    (∀ (hl : Bool) (r : IOResult) (w : Option String),
      (writerWrite hl r w).2 ≠ [] → hl = true ∧ r.err = none) := by
  refine ⟨?_, ?_, ?_, ?_⟩
  · cases hasLimiter with
    | false => simp [readerRead]
    | true => simp [readerRead, herr]; rw [← herr]
  · cases hasLimiter with
    | false => simp [writerWrite]
    | true => simp [writerWrite, herr]; rw [← herr]
  · intro hl r w hw
    cases hl with
    | false => simp [readerRead] at hw
    | true =>
      refine ⟨rfl, ?_⟩
      cases hre : r.err with
      | none => rfl
      | some e2 => simp [readerRead, hre] at hw
  · intro hl r w hw
    cases hl with
    | false => simp [writerWrite] at hw
    | true =>
      refine ⟨rfl, ?_⟩
      cases hre : r.err with
      | none => rfl
      | some e2 => simp [writerWrite, hre] at hw

/-- Claim C10, witness: a 512-byte final read chunk returned together with an
EOF-style error is passed through untouched, with an empty limiter trace. -/
theorem erroring_io_not_throttled_witness :
    readerRead true ⟨512, some "EOF"⟩ none = (⟨512, some "EOF"⟩, []) ∧
    writerWrite true ⟨512, some "EOF"⟩ none = (⟨512, some "EOF"⟩, []) ∧
    (∀ (hl : Bool) (r : IOResult) (w : Option String),
      (readerRead hl r w).2 ≠ [] → hl = true ∧ r.err = none) ∧
    (∀ (hl : Bool) (r : IOResult) (w : Option String),
      (writerWrite hl r w).2 ≠ [] → hl = true ∧ r.err = none) :=
  erroring_io_not_throttled true ⟨512, some "EOF"⟩ none "EOF" rfl

end SNIProxyModel
